import Mathlib

/-!
Shallow embedding of the Todo-List Kanban board (src/db.py, src/models.py,
src/tui.py, src/main.py).

`Models` embeds the task-store operations of models.py over an in-memory
relational store (the SQLite tables become lists of rows; `ORDER BY position`
becomes a sort by the `position` field; `CURRENT_TIMESTAMP` becomes an
explicit `now : Nat` argument).  `KanbanBoard` embeds the interactive board
controller of tui.py (its Python dicts become association lists keyed by
column id).  `TodoApp` embeds the key-action dispatch layer of tui.py,
including the modal input trimming that guards the mutation commands.
Operations that can raise in Python (`IndexError` on list indexing,
`ValueError` in models.py) return `Except String`.
-/

namespace Todo

/-- A row of the `columns` table (models.Column). -/
structure Column where
  id : Nat
  name : String
  position : Nat
  created_at : Nat
deriving DecidableEq

/-- A row of the `tasks` table (models.Task).  Dates and timestamps are
abstracted to `Option String` / `Nat`; their values are never computed with. -/
structure Task where
  id : Nat
  title : String
  description : Option String
  column_id : Nat
  position : Nat
  priority : Nat
  due_date : Option String
  created_at : Nat
  updated_at : Nat
deriving DecidableEq

/-- The SQLite database of db.py: the two tables plus the rowid counter that
feeds `cursor.lastrowid` for inserted tasks. -/
structure Store where
  columns : List Column
  tasks : List Task
  nextId : Nat
deriving DecidableEq

/-- Comparison used to model `ORDER BY position` on tasks. -/
def posLE (a b : Task) : Prop := a.position ≤ b.position

instance : DecidableRel posLE := fun a b => Nat.decLe a.position b.position

instance : IsTotal Task posLE := ⟨fun a b => Nat.le_total a.position b.position⟩

instance : IsTrans Task posLE := ⟨fun _ _ _ h1 h2 => Nat.le_trans h1 h2⟩

/-- Strict version of `posLE`, used to identify sorted task lists uniquely. -/
def posLT (a b : Task) : Prop := a.position < b.position

instance : IsAntisymm Task posLT :=
  ⟨fun _ _ h1 h2 => absurd (Nat.lt_trans h1 h2) (Nat.lt_irrefl _)⟩

/-- Comparison used to model `ORDER BY position` on columns. -/
def colLE (a b : Column) : Prop := a.position ≤ b.position

instance : DecidableRel colLE := fun a b => Nat.decLe a.position b.position

/-- SQL `LOWER(...)`: lower-case every character of the string. -/
def strLower (s : String) : String := ⟨s.data.map Char.toLower⟩

namespace Models

/-- models.get_all_columns: `SELECT * FROM columns ORDER BY position`. -/
def get_all_columns (s : Store) : List Column :=
  s.columns.insertionSort colLE

/-- models.get_column_by_name: first row with `LOWER(name) = LOWER(?)`. -/
def get_column_by_name (s : Store) (name : String) : Option Column :=
  s.columns.find? (fun c => strLower c.name == strLower name)

/-- models.get_tasks_by_column:
`SELECT * FROM tasks WHERE column_id = ? ORDER BY position`. -/
def get_tasks_by_column (s : Store) (column_id : Nat) : List Task :=
  (s.tasks.filter (fun t => t.column_id == column_id)).insertionSort posLE

/-- models.get_task_by_id: `SELECT * FROM tasks WHERE id = ?`. -/
def get_task_by_id (s : Store) (task_id : Nat) : Option Task :=
  s.tasks.find? (fun t => t.id == task_id)

/-- The `SELECT COALESCE(MAX(position), -1) + 1` query used by add_task and
move_task to compute the appended position in a column. -/
def next_position (s : Store) (column_id : Nat) : Nat :=
  match ((s.tasks.filter (fun t => t.column_id == column_id)).map
      (fun t => t.position)).max? with
  | none => 0
  | some m => m + 1

/-- models.add_task.  `now` models the CURRENT_TIMESTAMP schema defaults for
the created/updated columns on insert.  Raises when the column is unknown. -/
def add_task (s : Store) (now : Nat) (title : String) (column_name : String)
    (description : Option String) (priority : Nat) (due_date : Option String) :
    Except String (Store × Option Task) :=
  match get_column_by_name s column_name with
  | none => Except.error "Column not found"
  | some column =>
    let pos := next_position s column.id
    let t : Task := ⟨s.nextId, title, description, column.id, pos, priority,
      due_date, now, now⟩
    let s2 : Store := ⟨s.columns, s.tasks ++ [t], s.nextId + 1⟩
    Except.ok (s2, get_task_by_id s2 t.id)

/-- The UPDATE applied by models.move_task to the moved row. -/
def moveUpdate (t : Task) (column_id : Nat) (pos : Nat) (now : Nat) : Task :=
  ⟨t.id, t.title, t.description, column_id, pos, t.priority, t.due_date,
    t.created_at, now⟩

/-- models.move_task: reposition a task at the end of the target column.
Raises when the task id or the target column name is unknown. -/
def move_task (s : Store) (now : Nat) (task_id : Nat)
    (target_column_name : String) : Except String (Store × Option Task) :=
  match get_task_by_id s task_id with
  | none => Except.error "Task not found"
  | some _ =>
    match get_column_by_name s target_column_name with
    | none => Except.error "Column not found"
    | some column =>
      let pos := next_position s column.id
      let s2 : Store := ⟨s.columns,
        s.tasks.map (fun t =>
          if t.id == task_id then moveUpdate t column.id pos now else t),
        s.nextId⟩
      Except.ok (s2, get_task_by_id s2 task_id)

/-- models.update_task: update the fields that were passed (non-None), plus
updated_at, when at least one field was passed.  Raises on an unknown id. -/
def update_task (s : Store) (now : Nat) (task_id : Nat) (title : Option String)
    (description : Option String) (priority : Option Nat)
    (due_date : Option String) : Except String (Store × Option Task) :=
  match get_task_by_id s task_id with
  | none => Except.error "Task not found"
  | some _ =>
    if title.isSome || description.isSome || priority.isSome ||
        due_date.isSome then
      let s2 : Store := ⟨s.columns,
        s.tasks.map (fun t =>
          if t.id == task_id then
            ⟨t.id, title.getD t.title,
              (match description with
                | some d => some d
                | none => t.description),
              t.column_id, t.position, priority.getD t.priority,
              (match due_date with
                | some d => some d
                | none => t.due_date),
              t.created_at, now⟩
          else t),
        s.nextId⟩
      Except.ok (s2, get_task_by_id s2 task_id)
    else
      Except.ok (s, get_task_by_id s task_id)

/-- models.delete_task: `DELETE FROM tasks WHERE id = ?`; returns whether a
row was deleted (`cursor.rowcount > 0`).  Total: never raises. -/
def delete_task (s : Store) (task_id : Nat) : Store × Bool :=
  (⟨s.columns, s.tasks.filter (fun t => !(t.id == task_id)), s.nextId⟩,
    s.tasks.any (fun t => t.id == task_id))

end Models

/-- The mutable state of tui.KanbanBoard (its widget fields). -/
structure Board where
  columns : List Column
  tasks_by_column : List (Nat × List Task)
  active_column : Nat
  cursor_positions : List (Nat × Nat)
  moving_task : Option Task
  original_column_idx : Option Nat
deriving DecidableEq

/-- `m.get(k, d)` on a Python dict keyed by column id. -/
def alist_get {α : Type} (m : List (Nat × α)) (k : Nat) (d : α) : α :=
  match m.find? (fun p => p.fst == k) with
  | some p => p.snd
  | none => d

/-- `m[k] = v` on a Python dict keyed by column id: overwrite the entry when
the key is present (dict keys are unique), append it otherwise. -/
def alist_set {α : Type} : List (Nat × α) → Nat → α → List (Nat × α)
  | [], k, v => [(k, v)]
  | p :: m, k, v => if p.fst == k then (k, v) :: m else p :: alist_set m k v

instance {ε α : Type} [DecidableEq ε] [DecidableEq α] :
    DecidableEq (Except ε α) := fun a b =>
  match a, b with
  | Except.error x, Except.error y =>
    if h : x = y then Decidable.isTrue (congrArg Except.error h)
    else Decidable.isFalse (fun hc => h (Except.error.inj hc))
  | Except.error _, Except.ok _ =>
    Decidable.isFalse (fun hc => Except.noConfusion hc)
  | Except.ok _, Except.error _ =>
    Decidable.isFalse (fun hc => Except.noConfusion hc)
  | Except.ok x, Except.ok y =>
    if h : x = y then Decidable.isTrue (congrArg Except.ok h)
    else Decidable.isFalse (fun hc => h (Except.ok.inj hc))

/-- Field update for `self.active_column = i`. -/
def setActive (b : Board) (i : Nat) : Board :=
  ⟨b.columns, b.tasks_by_column, i, b.cursor_positions, b.moving_task,
    b.original_column_idx⟩

/-- Field update for `self.cursor_positions[k] = v`. -/
def setCursor (b : Board) (k v : Nat) : Board :=
  ⟨b.columns, b.tasks_by_column, b.active_column,
    alist_set b.cursor_positions k v, b.moving_task, b.original_column_idx⟩

/-- Field update for the moving-task pair of fields. -/
def setMoving (b : Board) (m : Option Task) (o : Option Nat) : Board :=
  ⟨b.columns, b.tasks_by_column, b.active_column, b.cursor_positions, m, o⟩

namespace KanbanBoard

open Models

/-- The `self.tasks_by_column` dict rebuilt by refresh_data: one entry per
column, in column order, holding that column's ordered tasks. -/
def refresh_tbc (s : Store) : List (Nat × List Task) :=
  (get_all_columns s).map (fun c => (c.id, get_tasks_by_column s c.id))

/-- The cursor-map repair applied per column by refresh_data: a missing entry
counts as 0 (it is initialized to 0 before clamping), an entry for an empty
column is forced to 0, and otherwise the entry is clamped to the column's
last index. -/
def clamp (s : Store) (k : Nat) (x : Nat) : Nat :=
  if (get_tasks_by_column s k).isEmpty then 0
  else min x ((get_tasks_by_column s k).length - 1)

/-- The cursor-map loop of refresh_data, one `clamp` per column in column
order. -/
def reconcile (s : Store) (cp : List (Nat × Nat)) : List (Nat × Nat) :=
  (get_all_columns s).foldl
    (fun acc col => alist_set acc col.id (clamp s col.id (alist_get acc col.id 0)))
    cp

/-- tui.KanbanBoard.refresh_data: reload columns and tasks from the store and
reconcile the cursor map.  Total: clamping never raises. -/
def refresh_data (s : Store) (b : Board) : Board :=
  ⟨get_all_columns s, refresh_tbc s, b.active_column,
    reconcile s b.cursor_positions, b.moving_task, b.original_column_idx⟩

/-- tui.KanbanBoard.move_cursor_left (rebuild re-runs refresh_data). -/
def move_cursor_left (s : Store) (b : Board) : Board :=
  if 0 < b.active_column then
    refresh_data s (setActive b (b.active_column - 1))
  else b

/-- tui.KanbanBoard.move_cursor_right. -/
def move_cursor_right (s : Store) (b : Board) : Board :=
  if b.active_column + 1 < b.columns.length then
    refresh_data s (setActive b (b.active_column + 1))
  else b

/-- tui.KanbanBoard.move_cursor_up: blocked while a task is being moved;
otherwise decrement the active column's cursor when possible. -/
def move_cursor_up (s : Store) (b : Board) : Except String Board :=
  if b.moving_task.isSome then Except.ok b
  else
    match b.columns[b.active_column]? with
    | none => Except.error "IndexError"
    | some col =>
      let tasks := alist_get b.tasks_by_column col.id []
      if tasks.isEmpty then Except.ok b
      else
        let pos := alist_get b.cursor_positions col.id 0
        if 0 < pos then Except.ok (refresh_data s (setCursor b col.id (pos - 1)))
        else Except.ok b

/-- tui.KanbanBoard.move_cursor_down. -/
def move_cursor_down (s : Store) (b : Board) : Except String Board :=
  if b.moving_task.isSome then Except.ok b
  else
    match b.columns[b.active_column]? with
    | none => Except.error "IndexError"
    | some col =>
      let tasks := alist_get b.tasks_by_column col.id []
      if tasks.isEmpty then Except.ok b
      else
        let pos := alist_get b.cursor_positions col.id 0
        if pos + 1 < tasks.length then
          Except.ok (refresh_data s (setCursor b col.id (pos + 1)))
        else Except.ok b

/-- tui.KanbanBoard.get_current_task: the task under the cursor, None when the
active column is empty or the stored index is out of range. -/
def get_current_task (b : Board) : Except String (Option Task) :=
  match b.columns[b.active_column]? with
  | none => Except.error "IndexError"
  | some col =>
    let tasks := alist_get b.tasks_by_column col.id []
    let pos := alist_get b.cursor_positions col.id 0
    if ¬tasks.isEmpty ∧ pos < tasks.length then Except.ok tasks[pos]?
    else Except.ok none

/-- tui.KanbanBoard.start_moving_task. -/
def start_moving_task (s : Store) (b : Board) : Except String (Board × Bool) :=
  match get_current_task b with
  | Except.error e => Except.error e
  | Except.ok none => Except.ok (b, false)
  | Except.ok (some task) =>
    Except.ok
      (refresh_data s (setMoving b (some task) (some b.active_column)), true)

/-- tui.KanbanBoard.confirm_move: place the picked-up task.  Calls the store's
move only when the active column differs from the origin column, then clears
the moving state, refreshes, and selects the target column's last task. -/
def confirm_move (s : Store) (now : Nat) (b : Board) :
    Except String (Store × Board × Bool) :=
  match b.moving_task with
  | none => Except.ok (s, b, false)
  | some mt =>
    match b.columns[b.active_column]? with
    | none => Except.error "IndexError"
    | some target_col =>
      match (if b.original_column_idx ≠ some b.active_column then
          (Models.move_task s now mt.id target_col.name).map Prod.fst
        else Except.ok s) with
      | Except.error e => Except.error e
      | Except.ok s2 =>
        let b1 := refresh_data s2 (setMoving b none none)
        let tasks := alist_get b1.tasks_by_column target_col.id []
        let b2 := setCursor b1 target_col.id (tasks.length - 1)
        Except.ok (s2, refresh_data s2 b2, true)

/-- tui.KanbanBoard.cancel_move: drop the moving state with no store call and
return the focus to the origin column. -/
def cancel_move (s : Store) (b : Board) : Board × Bool :=
  match b.moving_task with
  | none => (b, false)
  | some _ =>
    let ac := match b.original_column_idx with
      | some i => i
      | none => b.active_column
    (refresh_data s (setMoving (setActive b ac) none none), true)

/-- tui.KanbanBoard.is_moving. -/
def is_moving (b : Board) : Bool := b.moving_task.isSome

/-- tui.KanbanBoard.add_task: insert into the active column, refresh, and
select the column's new last task. -/
def add_task (s : Store) (now : Nat) (title : String) (b : Board) :
    Except String (Store × Board) :=
  match b.columns[b.active_column]? with
  | none => Except.error "IndexError"
  | some col =>
    match Models.add_task s now title col.name none 2 none with
    | Except.error e => Except.error e
    | Except.ok (s2, _) =>
      let b1 := refresh_data s2 b
      let tasks := alist_get b1.tasks_by_column col.id []
      Except.ok (s2, refresh_data s2 (setCursor b1 col.id (tasks.length - 1)))

/-- tui.KanbanBoard.delete_current_task: delete the task under the cursor,
refresh, and clamp the active column's cursor. -/
def delete_current_task (s : Store) (b : Board) :
    Except String (Store × Board × Bool) :=
  match get_current_task b with
  | Except.error e => Except.error e
  | Except.ok none => Except.ok (s, b, false)
  | Except.ok (some task) =>
    let s2 := (Models.delete_task s task.id).fst
    let b1 := refresh_data s2 b
    match b1.columns[b1.active_column]? with
    | none => Except.error "IndexError"
    | some col =>
      let tasks := alist_get b1.tasks_by_column col.id []
      let pos := alist_get b1.cursor_positions col.id 0
      let b2 := if tasks.length ≤ pos ∧ ¬tasks.isEmpty then
          setCursor b1 col.id (tasks.length - 1)
        else b1
      Except.ok (s2, refresh_data s2 b2, true)

end KanbanBoard

/-- Python str.strip: drop leading and trailing whitespace characters. -/
def pytrim (s : String) : String :=
  ⟨((s.data.dropWhile Char.isWhitespace).reverse.dropWhile
    Char.isWhitespace).reverse⟩

namespace TodoApp

open KanbanBoard

/-- tui.TodoApp.action_add_task plus AddTaskModal: while a move is in
progress the command is rejected before the modal opens; otherwise the modal
strips the typed text and dismisses None (handled as a no-op) when the result
is empty. -/
def action_add_task (s : Store) (now : Nat) (raw : String) (b : Board) :
    Except String (Store × Board) :=
  if is_moving b then Except.ok (s, b)
  else if pytrim raw = "" then Except.ok (s, b)
  else KanbanBoard.add_task s now (pytrim raw) b

/-- tui.TodoApp.action_edit_task plus EditTaskModal: rejected while moving;
no-op without a current task or when the stripped input is empty; otherwise
update the title and refresh (refresh_data then rebuild). -/
def action_edit_task (s : Store) (now : Nat) (raw : String) (b : Board) :
    Except String (Store × Board) :=
  if is_moving b then Except.ok (s, b)
  else
    match get_current_task b with
    | Except.error e => Except.error e
    | Except.ok none => Except.ok (s, b)
    | Except.ok (some task) =>
      if pytrim raw = "" then Except.ok (s, b)
      else
        match Models.update_task s now task.id (some (pytrim raw)) none none none with
        | Except.error e => Except.error e
        | Except.ok (s2, _) =>
          Except.ok (s2, refresh_data s2 (refresh_data s2 b))

/-- tui.TodoApp.action_delete_task plus DeleteConfirmModal: rejected while
moving; no-op without a current task or when the confirmation is declined. -/
def action_delete_task (s : Store) (confirmed : Bool) (b : Board) :
    Except String (Store × Board) :=
  if is_moving b then Except.ok (s, b)
  else
    match get_current_task b with
    | Except.error e => Except.error e
    | Except.ok none => Except.ok (s, b)
    | Except.ok (some _) =>
      if confirmed then
        match delete_current_task s b with
        | Except.error e => Except.error e
        | Except.ok (s2, b2, _) => Except.ok (s2, b2)
      else Except.ok (s, b)

end TodoApp

/-! ### Verification-layer predicates and concrete example data -/

/-- A board state whose snapshot agrees with the store and whose cursor map is
already reconciled — the shape every KanbanBoard operation leaves behind,
since each mutating path ends in refresh_data/rebuild. -/
def consistent (s : Store) (b : Board) : Prop :=
  b.columns = Models.get_all_columns s ∧
  b.tasks_by_column = KanbanBoard.refresh_tbc s ∧
  KanbanBoard.reconcile s b.cursor_positions = b.cursor_positions

/-- The ordered position values of a column's tasks. -/
def columnPositions (s : Store) (cid : Nat) : List Nat :=
  (Models.get_tasks_by_column s cid).map (fun t => t.position)

/-- The spec's density invariant, formalized from the spec's words: within a
column, stored positions form a dense, gap-free, zero-based ordering with
exactly one task per position — the ordered positions are exactly
0, 1, ..., N-1. -/
abbrev denseColumn (s : Store) (cid : Nat) : Prop :=
  columnPositions s cid = List.range (columnPositions s cid).length

def c1Task1 : Task := ⟨1, "A", none, 1, 0, 2, none, 0, 0⟩

def c1Task2 : Task := ⟨2, "B", none, 1, 1, 2, none, 0, 0⟩

/-- Two tasks at dense positions 0, 1 in the single column "Todo". -/
def c1Store : Store := ⟨[⟨1, "Todo", 0, 0⟩], [c1Task1, c1Task2], 3⟩

def c1Board : Board :=
  KanbanBoard.refresh_data c1Store ⟨[], [], 0, [], none, none⟩

def c1wStore : Store :=
  ⟨[⟨1, "Todo", 0, 0⟩, ⟨2, "Doing", 1, 0⟩],
    [⟨1, "A", none, 2, 0, 2, none, 0, 0⟩, ⟨2, "B", none, 2, 1, 2, none, 0, 0⟩],
    3⟩

/-- `c1wStore` after task 1 is repositioned into the empty column "Todo". -/
def c1wMoved : Store :=
  ⟨[⟨1, "Todo", 0, 0⟩, ⟨2, "Doing", 1, 0⟩],
    [⟨1, "A", none, 1, 0, 2, none, 0, 9⟩, ⟨2, "B", none, 2, 1, 2, none, 0, 0⟩],
    3⟩

/-- The store move_task's UPDATE produces once the task id and target column
(of id `ccid`) have resolved: the moved row gets the target column and the
appended position, every other row is untouched. -/
def moveStore (s : Store) (now tid ccid : Nat) : Store :=
  ⟨s.columns,
    s.tasks.map (fun t =>
      if t.id == tid then
        Models.moveUpdate t ccid (Models.next_position s ccid) now
      else t),
    s.nextId⟩

def c6Task : Task := ⟨1, "A", none, 2, 0, 2, none, 0, 0⟩

/-- A task already in the destination column, at position 1 (gap before it). -/
def c6Gap : Task := ⟨3, "G", none, 1, 1, 2, none, 0, 0⟩

def c6Store : Store :=
  ⟨[⟨1, "Todo", 0, 0⟩, ⟨2, "Doing", 1, 0⟩], [c6Task, c6Gap], 4⟩

/-- Task 1 picked up in column index 1, focus moved to column index 0. -/
def c6Board : Board :=
  KanbanBoard.refresh_data c6Store ⟨[], [], 0, [], some c6Task, some 1⟩

def c2Task : Task := ⟨1, "A", none, 2, 0, 2, none, 0, 0⟩

/-- A task left at position 1 of column 1 with no task at position 0 (the
state a deletion leaves behind). -/
def c2Gap : Task := ⟨3, "G", none, 1, 1, 2, none, 0, 0⟩

def c2Store : Store :=
  ⟨[⟨1, "Todo", 0, 0⟩, ⟨2, "Doing", 1, 0⟩], [c2Task, c2Gap], 4⟩

/-- Task 1 picked up in column index 1, focus moved to column index 0. -/
def c2Board : Board :=
  KanbanBoard.refresh_data c2Store ⟨[], [], 0, [], some c2Task, some 1⟩

/-- The four cursor-navigation key commands of the Interaction Loop. -/
inductive NavCmd where
  | left : NavCmd
  | right : NavCmd
  | up : NavCmd
  | down : NavCmd
deriving DecidableEq

/-- Dispatch one navigation key to the corresponding KanbanBoard method. -/
def navStep (s : Store) (b : Board) : NavCmd → Except String Board
  | NavCmd.left => Except.ok (KanbanBoard.move_cursor_left s b)
  | NavCmd.right => Except.ok (KanbanBoard.move_cursor_right s b)
  | NavCmd.up => KanbanBoard.move_cursor_up s b
  | NavCmd.down => KanbanBoard.move_cursor_down s b

/-- Run a sequence of navigation commands against a fixed store. -/
def navRun (s : Store) (b : Board) : List NavCmd → Except String Board
  | [] => Except.ok b
  | c :: cs =>
    match navStep s b c with
    | Except.error e => Except.error e
    | Except.ok b2 => navRun s b2 cs

/-- The spec's cursor-bounds invariant: every column's stored index lies in
[0, N-1] when the column holds N > 0 tasks and equals 0 when it is empty. -/
abbrev boardCursorOk (b : Board) : Prop :=
  ∀ col ∈ b.columns,
    (alist_get b.tasks_by_column col.id [] = [] →
      alist_get b.cursor_positions col.id 0 = 0) ∧
    (alist_get b.tasks_by_column col.id [] ≠ [] →
      alist_get b.cursor_positions col.id 0 <
        (alist_get b.tasks_by_column col.id []).length)

/-- Invariant carried across navigation: the snapshot's column list matches
the store, the active column index is in range, and the cursor map is in
bounds. -/
abbrev navInv (s : Store) (b : Board) : Prop :=
  b.columns = Models.get_all_columns s ∧
  b.active_column < b.columns.length ∧
  boardCursorOk b

def c7Store : Store :=
  ⟨[⟨1, "Todo", 0, 0⟩, ⟨2, "Doing", 1, 0⟩],
    [⟨1, "A", none, 2, 0, 2, none, 0, 0⟩, ⟨2, "B", none, 2, 1, 2, none, 0, 0⟩],
    3⟩

def c7Board : Board :=
  KanbanBoard.refresh_data c7Store ⟨[], [], 0, [], none, none⟩

/-- A board whose cursor entries are far out of range, to exercise the silent
clamping on refresh. -/
def c7BadBoard : Board := ⟨[], [], 0, [(1, 99), (2, 99)], none, none⟩

def c3Task : Task := ⟨1, "A", none, 1, 0, 2, none, 0, 0⟩

def c3Store : Store := ⟨[⟨1, "Todo", 0, 0⟩], [c3Task], 2⟩

def c3Board : Board :=
  ⟨[⟨1, "Todo", 0, 0⟩], [(1, [c3Task])], 0, [(1, 0)], some c3Task, some 0⟩

def c4Task : Task := ⟨1, "A", none, 1, 0, 2, none, 0, 0⟩

def c4Store : Store := ⟨[⟨1, "Todo", 0, 0⟩], [c4Task], 2⟩

def c4Board : Board :=
  ⟨[⟨1, "Todo", 0, 0⟩], [(1, [c4Task])], 0, [(1, 0)], some c4Task, some 0⟩

def c5Task : Task := ⟨1, "A", none, 1, 0, 2, none, 0, 0⟩

def c5Store : Store := ⟨[⟨1, "Todo", 0, 0⟩], [c5Task], 2⟩

def c5Board : Board :=
  KanbanBoard.refresh_data c5Store ⟨[], [], 0, [], none, none⟩

def c8Store : Store := ⟨[⟨1, "Todo", 0, 0⟩], [], 1⟩

def c8Board : Board := ⟨[⟨1, "Todo", 0, 0⟩], [(1, [])], 0, [(1, 0)], none, none⟩

def c9Store : Store := ⟨[⟨1, "Todo", 0, 0⟩], [⟨1, "A", none, 1, 0, 2, none, 0, 0⟩], 2⟩

def c10Board : Board :=
  ⟨[⟨1, "Todo", 0, 0⟩], [(1, [⟨1, "A", none, 1, 0, 2, none, 0, 0⟩])], 0,
    [(1, 5)], none, none⟩

/-! ### Claim theorems -/

/-- C5: picking a task up and cancelling immediately afterwards restores the
Board Snapshot (columns and per-column task lists), the Active Column Index
and the whole Cursor Map to their pre-pick-up values. -/
theorem c5_pickup_cancel_roundtrip (s : Store) (b : Board) (task : Task)
    (hcons : consistent s b)
    (hcur : KanbanBoard.get_current_task b = Except.ok (some task)) :
    ∃ b1 b2, KanbanBoard.start_moving_task s b = Except.ok (b1, true) ∧
      KanbanBoard.cancel_move s b1 = (b2, true) ∧
      b2.columns = b.columns ∧ b2.tasks_by_column = b.tasks_by_column ∧
      b2.active_column = b.active_column ∧
      b2.cursor_positions = b.cursor_positions := by
  obtain ⟨hc, ht, hr⟩ := hcons
  have h1 : KanbanBoard.start_moving_task s b =
      Except.ok (KanbanBoard.refresh_data s
        (setMoving b (some task) (some b.active_column)), true) := by
    rw [KanbanBoard.start_moving_task, hcur]
  refine ⟨_, _, h1, rfl, ?_, ?_, ?_, ?_⟩
  · exact hc.symm
  · exact ht.symm
  · rfl
  · show KanbanBoard.reconcile s (KanbanBoard.reconcile s b.cursor_positions) =
      b.cursor_positions
    rw [hr, hr]

theorem c5_witness :
    ∃ b1 b2,
      KanbanBoard.start_moving_task c5Store c5Board = Except.ok (b1, true) ∧
      KanbanBoard.cancel_move c5Store b1 = (b2, true) ∧
      b2.columns = c5Board.columns ∧
      b2.tasks_by_column = c5Board.tasks_by_column ∧
      b2.active_column = c5Board.active_column ∧
      b2.cursor_positions = c5Board.cursor_positions :=
  c5_pickup_cancel_roundtrip c5Store c5Board c5Task
    (by refine ⟨?_, ?_, ?_⟩ <;> decide) rfl

/-- C3: while a Move Session is active (`is_moving` is true), vertical cursor
navigation and the mutation commands (add, edit, delete) are rejected as
no-ops: they return the board state and the task store unchanged. -/
theorem c3_moving_blocks_commands (s : Store) (now : Nat) (b : Board)
    (hm : KanbanBoard.is_moving b = true) :
    KanbanBoard.move_cursor_up s b = Except.ok b ∧
    KanbanBoard.move_cursor_down s b = Except.ok b ∧
    (∀ raw, TodoApp.action_add_task s now raw b = Except.ok (s, b)) ∧
    (∀ raw, TodoApp.action_edit_task s now raw b = Except.ok (s, b)) ∧
    (∀ confirmed, TodoApp.action_delete_task s confirmed b = Except.ok (s, b)) := by
  rw [KanbanBoard.is_moving] at hm
  refine ⟨?_, ?_, ?_, ?_, ?_⟩ <;>
    simp [KanbanBoard.move_cursor_up, KanbanBoard.move_cursor_down,
      TodoApp.action_add_task, TodoApp.action_edit_task,
      TodoApp.action_delete_task, KanbanBoard.is_moving, hm]

theorem c3_witness :
    KanbanBoard.move_cursor_up c3Store c3Board = Except.ok c3Board ∧
    KanbanBoard.move_cursor_down c3Store c3Board = Except.ok c3Board ∧
    TodoApp.action_add_task c3Store 0 "x" c3Board = Except.ok (c3Store, c3Board) ∧
    TodoApp.action_edit_task c3Store 0 "x" c3Board = Except.ok (c3Store, c3Board) ∧
    TodoApp.action_delete_task c3Store true c3Board = Except.ok (c3Store, c3Board) :=
  ⟨(c3_moving_blocks_commands c3Store 0 c3Board rfl).1,
    (c3_moving_blocks_commands c3Store 0 c3Board rfl).2.1,
    (c3_moving_blocks_commands c3Store 0 c3Board rfl).2.2.1 "x",
    (c3_moving_blocks_commands c3Store 0 c3Board rfl).2.2.2.1 "x",
    (c3_moving_blocks_commands c3Store 0 c3Board rfl).2.2.2.2 true⟩

/-- C4: placing a picked-up task while the Active Column Index equals the
origin column index performs no task-store mutation: confirm_move succeeds
and returns the store unchanged, so every task keeps its column, position,
title and timestamps. -/
theorem c4_same_column_place_no_store_mutation (s : Store) (now : Nat)
    (b : Board) (mt : Task) (hm : b.moving_task = some mt)
    (ho : b.original_column_idx = some b.active_column)
    (hcol : b.active_column < b.columns.length) :
    ∃ b2, KanbanBoard.confirm_move s now b = Except.ok (s, b2, true) := by
  have htarget : b.columns[b.active_column]? = some b.columns[b.active_column] :=
    List.getElem?_eq_getElem hcol
  simp only [KanbanBoard.confirm_move, hm, htarget, ho, ne_eq,
    not_true_eq_false, ite_false, if_false]
  exact ⟨_, rfl⟩

theorem c4_witness :
    ∃ b2, KanbanBoard.confirm_move c4Store 7 c4Board =
      Except.ok (c4Store, b2, true) :=
  c4_same_column_place_no_store_mutation c4Store 7 c4Board c4Task rfl rfl
    (by decide)

/-- C8: a title that is empty after trimming makes the add command a silent
no-op: nothing is inserted into the store, no error is raised, and the board
is unchanged. -/
theorem c8_blank_title_add_noop (s : Store) (now : Nat) (raw : String)
    (b : Board) (h : pytrim raw = "") :
    TodoApp.action_add_task s now raw b = Except.ok (s, b) := by
  simp [TodoApp.action_add_task, h]

theorem c8_witness :
    TodoApp.action_add_task c8Store 0 "  " c8Board = Except.ok (c8Store, c8Board) :=
  c8_blank_title_add_noop c8Store 0 "  " c8Board (by decide)

/-- C9: the store's delete_task is total (it returns a Bool instead of
raising): it returns true exactly when a task with the given id existed, that
task is gone afterwards, and on false the store is unchanged — while
move_task and update_task raise on a nonexistent id. -/
theorem c9_delete_total_move_update_raise (s : Store) (now : Nat) (tid : Nat)
    (tgt : String) :
    ((Models.delete_task s tid).snd = true ↔ ∃ t ∈ s.tasks, t.id = tid) ∧
    ((Models.delete_task s tid).snd = false →
      (Models.delete_task s tid).fst = s) ∧
    (∀ t ∈ (Models.delete_task s tid).fst.tasks, t.id ≠ tid) ∧
    ((∀ t ∈ s.tasks, t.id ≠ tid) →
      Models.move_task s now tid tgt = Except.error "Task not found" ∧
      Models.update_task s now tid (some "t") none none none =
        Except.error "Task not found") := by
  refine ⟨?_, ?_, ?_, ?_⟩
  · simp [Models.delete_task, List.any_eq_true]
  · intro hfalse
    simp only [Models.delete_task, List.any_eq_false, beq_iff_eq] at hfalse
    simp only [Models.delete_task]
    have : s.tasks.filter (fun t => !(t.id == tid)) = s.tasks :=
      List.filter_eq_self.mpr (fun t ht => by simp [hfalse t ht])
    rw [this]
  · intro t ht
    rw [Models.delete_task] at ht
    simp only [List.mem_filter, Bool.not_eq_eq_eq_not, Bool.not_true,
      beq_eq_false_iff_ne] at ht
    exact ht.2
  · intro hnone
    have hfind : Models.get_task_by_id s tid = none := by
      rw [Models.get_task_by_id]
      exact List.find?_eq_none.mpr (fun t ht => by simp [hnone t ht])
    constructor
    · rw [Models.move_task, hfind]
    · rw [Models.update_task, hfind]

theorem c9_witness :
    Models.move_task c9Store 0 5 "Todo" = Except.error "Task not found" ∧
    Models.update_task c9Store 0 5 (some "t") none none none =
      Except.error "Task not found" :=
  (c9_delete_total_move_update_raise c9Store 0 5 "Todo").2.2.2 (by decide)

/-- C10: get_current_task is total for every board whose active column index
is in range of the snapshot's column list (the one environment precondition
the spec assumes): it returns Except.ok — none for an empty active column or
an out-of-range cursor entry — and returns a task only when the cursor entry
indexes that task inside the active column's task list. -/
theorem c10_current_task_total (b : Board)
    (h : b.active_column < b.columns.length) :
    ∃ r : Option Task, KanbanBoard.get_current_task b = Except.ok r ∧
      ∀ t, r = some t →
        ∃ col, b.columns[b.active_column]? = some col ∧
          (alist_get b.tasks_by_column col.id [])[alist_get
            b.cursor_positions col.id 0]? = some t := by
  have htarget : b.columns[b.active_column]? = some b.columns[b.active_column] :=
    List.getElem?_eq_getElem h
  have hred : KanbanBoard.get_current_task b =
      (if ¬(alist_get b.tasks_by_column (b.columns[b.active_column]).id
            []).isEmpty = true ∧
          alist_get b.cursor_positions (b.columns[b.active_column]).id 0 <
            (alist_get b.tasks_by_column (b.columns[b.active_column]).id
              []).length then
        Except.ok (alist_get b.tasks_by_column (b.columns[b.active_column]).id
          [])[alist_get b.cursor_positions (b.columns[b.active_column]).id 0]?
      else Except.ok none) := by
    rw [KanbanBoard.get_current_task, htarget]
  by_cases hc : ¬(alist_get b.tasks_by_column
      (b.columns[b.active_column]).id []).isEmpty = true ∧
      alist_get b.cursor_positions (b.columns[b.active_column]).id 0 <
        (alist_get b.tasks_by_column (b.columns[b.active_column]).id []).length
  · refine ⟨_, by rw [hred, if_pos hc], ?_⟩
    intro t htt
    exact ⟨b.columns[b.active_column], htarget, htt⟩
  · refine ⟨none, by rw [hred, if_neg hc], ?_⟩
    intro t htt
    cases htt

theorem c10_witness :
    ∃ r : Option Task, KanbanBoard.get_current_task c10Board = Except.ok r ∧
      ∀ t, r = some t →
        ∃ col, c10Board.columns[c10Board.active_column]? = some col ∧
          (alist_get c10Board.tasks_by_column col.id [])[alist_get
            c10Board.cursor_positions col.id 0]? = some t :=
  c10_current_task_total c10Board (by decide)

/-! ### Association-list and reconcile lemmas -/

theorem alist_get_cons {α : Type} (p : Nat × α) (m : List (Nat × α)) (k : Nat)
    (d : α) :
    alist_get (p :: m) k d = if p.fst == k then p.snd else alist_get m k d := by
  cases h : (p.fst == k) with
  | true => simp [alist_get, List.find?_cons, h]
  | false => simp [alist_get, List.find?_cons, h]

theorem alist_get_set_self {α : Type} (m : List (Nat × α)) (k : Nat) (v d : α) :
    alist_get (alist_set m k v) k d = v := by
  induction m with
  | nil => simp [alist_set, alist_get_cons]
  | cons p m ih =>
    cases h : (p.fst == k) with
    | true => simp [alist_set, h, alist_get_cons]
    | false => simp [alist_set, h, alist_get_cons, ih]

theorem alist_get_set_other {α : Type} (m : List (Nat × α)) (a k : Nat)
    (v d : α) (h : a ≠ k) :
    alist_get (alist_set m a v) k d = alist_get m k d := by
  induction m with
  | nil => simp [alist_set, alist_get_cons, alist_get, h]
  | cons p m ih =>
    cases hpf : (p.fst == a) with
    | true =>
      have hpa : p.fst = a := by simpa using hpf
      simp [alist_set, hpf, alist_get_cons, hpa, h]
    | false => simp [alist_set, hpf, alist_get_cons, ih]

theorem alist_get_map_tasks (s : Store) (cols : List Column) (k : Nat)
    (hk : k ∈ cols.map (fun c => c.id)) :
    alist_get (cols.map (fun c => (c.id, Models.get_tasks_by_column s c.id)))
      k [] = Models.get_tasks_by_column s k := by
  induction cols with
  | nil => cases hk
  | cons c cols ih =>
    rw [List.map_cons, alist_get_cons]
    cases hck : (c.id == k) with
    | true =>
      have hc : c.id = k := by simpa using hck
      simp [hc]
    | false =>
      have hck2 : c.id ≠ k := by simpa using hck
      have hk2 : k ∈ cols.map (fun c => c.id) := by
        simp only [List.map_cons, List.mem_cons] at hk
        rcases hk with h1 | h1
        · exact absurd h1.symm hck2
        · exact h1
      simpa [hck] using ih hk2

/-- Entry of the rebuilt tasks_by_column dict for a column id of the store. -/
theorem tbc_get (s : Store) (k : Nat)
    (hk : k ∈ (Models.get_all_columns s).map (fun c => c.id)) :
    alist_get (KanbanBoard.refresh_tbc s) k [] =
      Models.get_tasks_by_column s k := by
  rw [KanbanBoard.refresh_tbc]
  exact alist_get_map_tasks s _ k hk

theorem clamp_idem (s : Store) (k x : Nat) :
    KanbanBoard.clamp s k (KanbanBoard.clamp s k x) = KanbanBoard.clamp s k x := by
  unfold KanbanBoard.clamp
  by_cases h : (Models.get_tasks_by_column s k).isEmpty
  · simp [h]
  · simp only [h, if_false, Bool.false_eq_true]
    rw [Nat.min_def, Nat.min_def]
    split_ifs <;> omega

theorem reconcile_fold_get (s : Store) (cols : List Column)
    (cp : List (Nat × Nat)) (k : Nat) :
    alist_get (cols.foldl (fun acc col =>
        alist_set acc col.id (KanbanBoard.clamp s col.id
          (alist_get acc col.id 0))) cp) k 0 =
      if k ∈ cols.map (fun c => c.id) then
        KanbanBoard.clamp s k (alist_get cp k 0)
      else alist_get cp k 0 := by
  induction cols generalizing cp with
  | nil => simp
  | cons c cols ih =>
    rw [List.foldl_cons, ih]
    by_cases hck : c.id = k
    · subst hck
      by_cases hmem : c.id ∈ cols.map (fun c => c.id)
      · rw [if_pos hmem, if_pos (by simp), alist_get_set_self, clamp_idem]
      · rw [if_neg hmem, if_pos (by simp), alist_get_set_self]
    · by_cases hmem : k ∈ cols.map (fun c => c.id)
      · rw [if_pos hmem, if_pos (by simp [hmem]),
          alist_get_set_other _ _ _ _ _ hck]
      · rw [if_neg hmem, if_neg (by simp [Ne.symm hck, hmem]),
          alist_get_set_other _ _ _ _ _ hck]

/-- The reconciled cursor entry of a column id is the clamp of the old one. -/
theorem reconcile_get (s : Store) (cp : List (Nat × Nat)) (k : Nat)
    (hk : k ∈ (Models.get_all_columns s).map (fun c => c.id)) :
    alist_get (KanbanBoard.reconcile s cp) k 0 =
      KanbanBoard.clamp s k (alist_get cp k 0) := by
  rw [KanbanBoard.reconcile, reconcile_fold_get, if_pos hk]

/-- Any refresh leaves every column's cursor entry in bounds. -/
theorem refresh_cursorOk (s : Store) (b : Board) :
    boardCursorOk (KanbanBoard.refresh_data s b) := by
  intro col hcol
  have hcol2 : col ∈ Models.get_all_columns s := hcol
  have hk : col.id ∈ (Models.get_all_columns s).map (fun c => c.id) :=
    List.mem_map_of_mem _ hcol2
  have ht : alist_get (KanbanBoard.refresh_data s b).tasks_by_column col.id []
      = Models.get_tasks_by_column s col.id := tbc_get s col.id hk
  have hcget : alist_get (KanbanBoard.refresh_data s b).cursor_positions
      col.id 0 =
      KanbanBoard.clamp s col.id (alist_get b.cursor_positions col.id 0) :=
    reconcile_get s b.cursor_positions col.id hk
  rw [ht, hcget, KanbanBoard.clamp]
  by_cases he : (Models.get_tasks_by_column s col.id).isEmpty
  · have hnil : Models.get_tasks_by_column s col.id = [] := by
      simpa using he
    rw [if_pos he]
    exact ⟨fun _ => rfl, fun hne => absurd hnil hne⟩
  · have hne : Models.get_tasks_by_column s col.id ≠ [] := by
      simpa using he
    have hlen : 0 < (Models.get_tasks_by_column s col.id).length :=
      List.length_pos.mpr hne
    rw [if_neg he]
    refine ⟨fun hh => absurd hh hne, fun _ => ?_⟩
    have := Nat.min_le_right (alist_get b.cursor_positions col.id 0)
      ((Models.get_tasks_by_column s col.id).length - 1)
    omega

/-- One navigation command preserves the navigation invariant and never
raises. -/
theorem navStep_preserves (s : Store) (b : Board) (c : NavCmd)
    (hinv : navInv s b) :
    ∃ b2, navStep s b c = Except.ok b2 ∧ navInv s b2 := by
  obtain ⟨hc, ha, hok⟩ := hinv
  have hlen : b.columns.length = (Models.get_all_columns s).length := by
    rw [hc]
  cases c with
  | left =>
    rw [navStep, KanbanBoard.move_cursor_left]
    by_cases h : 0 < b.active_column
    · rw [if_pos h]
      refine ⟨_, rfl, rfl, ?_, refresh_cursorOk s _⟩
      show b.active_column - 1 < (Models.get_all_columns s).length
      omega
    · rw [if_neg h]
      exact ⟨b, rfl, hc, ha, hok⟩
  | right =>
    rw [navStep, KanbanBoard.move_cursor_right]
    by_cases h : b.active_column + 1 < b.columns.length
    · rw [if_pos h]
      refine ⟨_, rfl, rfl, ?_, refresh_cursorOk s _⟩
      show b.active_column + 1 < (Models.get_all_columns s).length
      omega
    · rw [if_neg h]
      exact ⟨b, rfl, hc, ha, hok⟩
  | up =>
    rw [navStep]
    by_cases hm : b.moving_task.isSome
    · rw [KanbanBoard.move_cursor_up, if_pos hm]
      exact ⟨b, rfl, hc, ha, hok⟩
    · have htarget : b.columns[b.active_column]? =
          some b.columns[b.active_column] := List.getElem?_eq_getElem ha
      have hred : KanbanBoard.move_cursor_up s b =
          (if (alist_get b.tasks_by_column
              (b.columns[b.active_column]).id []).isEmpty = true then
            Except.ok b
          else if 0 < alist_get b.cursor_positions
              (b.columns[b.active_column]).id 0 then
            Except.ok (KanbanBoard.refresh_data s
              (setCursor b (b.columns[b.active_column]).id
                (alist_get b.cursor_positions
                  (b.columns[b.active_column]).id 0 - 1)))
          else Except.ok b) := by
        rw [KanbanBoard.move_cursor_up, if_neg hm, htarget]
      rw [hred]
      by_cases he : (alist_get b.tasks_by_column
          (b.columns[b.active_column]).id []).isEmpty = true
      · rw [if_pos he]
        exact ⟨b, rfl, hc, ha, hok⟩
      · rw [if_neg he]
        by_cases hp : 0 < alist_get b.cursor_positions
            (b.columns[b.active_column]).id 0
        · rw [if_pos hp]
          refine ⟨_, rfl, rfl, ?_, refresh_cursorOk s _⟩
          show b.active_column < (Models.get_all_columns s).length
          omega
        · rw [if_neg hp]
          exact ⟨b, rfl, hc, ha, hok⟩
  | down =>
    rw [navStep]
    by_cases hm : b.moving_task.isSome
    · rw [KanbanBoard.move_cursor_down, if_pos hm]
      exact ⟨b, rfl, hc, ha, hok⟩
    · have htarget : b.columns[b.active_column]? =
          some b.columns[b.active_column] := List.getElem?_eq_getElem ha
      have hred : KanbanBoard.move_cursor_down s b =
          (if (alist_get b.tasks_by_column
              (b.columns[b.active_column]).id []).isEmpty = true then
            Except.ok b
          else if alist_get b.cursor_positions
              (b.columns[b.active_column]).id 0 + 1 <
              (alist_get b.tasks_by_column
                (b.columns[b.active_column]).id []).length then
            Except.ok (KanbanBoard.refresh_data s
              (setCursor b (b.columns[b.active_column]).id
                (alist_get b.cursor_positions
                  (b.columns[b.active_column]).id 0 + 1)))
          else Except.ok b) := by
        rw [KanbanBoard.move_cursor_down, if_neg hm, htarget]
      rw [hred]
      by_cases he : (alist_get b.tasks_by_column
          (b.columns[b.active_column]).id []).isEmpty = true
      · rw [if_pos he]
        exact ⟨b, rfl, hc, ha, hok⟩
      · rw [if_neg he]
        by_cases hp : alist_get b.cursor_positions
            (b.columns[b.active_column]).id 0 + 1 <
            (alist_get b.tasks_by_column
              (b.columns[b.active_column]).id []).length
        · rw [if_pos hp]
          refine ⟨_, rfl, rfl, ?_, refresh_cursorOk s _⟩
          show b.active_column < (Models.get_all_columns s).length
          omega
        · rw [if_neg hp]
          exact ⟨b, rfl, hc, ha, hok⟩

theorem navRun_preserves (s : Store) (cmds : List NavCmd) :
    ∀ b : Board, navInv s b →
      ∃ b2, navRun s b cmds = Except.ok b2 ∧ navInv s b2 := by
  induction cmds with
  | nil => exact fun b hinv => ⟨b, rfl, hinv⟩
  | cons c cs ih =>
    intro b hinv
    obtain ⟨b1, hstep, hinv1⟩ := navStep_preserves s b c hinv
    have hrun : navRun s b (c :: cs) = navRun s b1 cs := by
      rw [navRun, hstep]
    rw [hrun]
    exact ih b1 hinv1

/-- C7: from any in-bounds board state, every sequence of navigation commands
keeps the Active Column Index inside [0, columnCount-1] and every cursor
entry inside its column's bounds (0 for an empty column) without raising, and
every snapshot refresh silently clamps arbitrary out-of-range cursor entries
back into bounds. -/
theorem c7_navigation_bounds (s : Store) (b : Board) (hinv : navInv s b) :
    (∀ cmds, ∃ b2, navRun s b cmds = Except.ok b2 ∧
      b2.active_column < b2.columns.length ∧ boardCursorOk b2) ∧
    (∀ b0 : Board, boardCursorOk (KanbanBoard.refresh_data s b0)) := by
  constructor
  · intro cmds
    obtain ⟨b2, hrun, hinv2⟩ := navRun_preserves s cmds b hinv
    exact ⟨b2, hrun, hinv2.2.1, hinv2.2.2⟩
  · exact fun b0 => refresh_cursorOk s b0

theorem c7_witness :
    (∃ b2, navRun c7Store c7Board
        [NavCmd.right, NavCmd.down, NavCmd.up, NavCmd.left] = Except.ok b2 ∧
      b2.active_column < b2.columns.length ∧ boardCursorOk b2) ∧
    boardCursorOk (KanbanBoard.refresh_data c7Store c7BadBoard) :=
  ⟨(c7_navigation_bounds c7Store c7Board (by decide)).1
      [NavCmd.right, NavCmd.down, NavCmd.up, NavCmd.left],
    (c7_navigation_bounds c7Store c7Board (by decide)).2 c7BadBoard⟩

/-! ### Sorted-task-list lemmas -/

theorem filter_swap {α : Type} (p q : α → Bool) (l : List α) :
    (l.filter p).filter q = (l.filter q).filter p := by
  rw [List.filter_filter, List.filter_filter]
  exact List.filter_congr (fun a _ => Bool.and_comm _ _)

/-- A position-sorted task list with pairwise-distinct positions is strictly
sorted. -/
theorem pairwise_posLT_of_sorted (l : List Task) (hs : l.Pairwise posLE)
    (hn : (l.map (fun t => t.position)).Nodup) : l.Pairwise posLT := by
  have hne : l.Pairwise (fun a b => a.position ≠ b.position) :=
    List.pairwise_map.mp hn
  exact (hs.and hne).imp (fun h => Nat.lt_of_le_of_ne h.1 h.2)

/-- Sorting commutes with filtering when positions are pairwise distinct. -/
theorem insertionSort_filter (l : List Task) (q : Task → Bool)
    (hn : (l.map (fun t => t.position)).Nodup) :
    (l.filter q).insertionSort posLE = (l.insertionSort posLE).filter q := by
  have hperm : List.Perm ((l.filter q).insertionSort posLE)
      ((l.insertionSort posLE).filter q) :=
    (List.perm_insertionSort posLE (l.filter q)).trans
      (((List.perm_insertionSort posLE l).filter q).symm)
  have hs1 : ((l.filter q).insertionSort posLE).Pairwise posLE :=
    List.sorted_insertionSort posLE (l.filter q)
  have hs2 : ((l.insertionSort posLE).filter q).Pairwise posLE :=
    (List.sorted_insertionSort posLE l).filter q
  have hn1 : (((l.filter q).insertionSort posLE).map
      (fun t => t.position)).Nodup := by
    have hnf : ((l.filter q).map (fun t => t.position)).Nodup :=
      ((List.filter_sublist l).map (fun t => t.position)).nodup hn
    exact (((List.perm_insertionSort posLE (l.filter q)).map
      (fun t => t.position)).symm).nodup hnf
  have hn2 : (((l.insertionSort posLE).filter q).map
      (fun t => t.position)).Nodup := by
    have hnl : ((l.insertionSort posLE).map (fun t => t.position)).Nodup :=
      (((List.perm_insertionSort posLE l).map (fun t => t.position)).symm).nodup
        hn
    exact ((List.filter_sublist (l.insertionSort posLE)).map
      (fun t => t.position)).nodup hnl
  exact List.eq_of_perm_of_sorted hperm
    (pairwise_posLT_of_sorted _ hs1 hn1) (pairwise_posLT_of_sorted _ hs2 hn2)

theorem filter_col_cons (t : Task) (l : List Task) (cid : Nat) :
    (t :: l).filter (fun x => x.column_id == cid) =
      if (t.column_id == cid) = true then
        t :: l.filter (fun x => x.column_id == cid)
      else l.filter (fun x => x.column_id == cid) := by
  by_cases h : (t.column_id == cid) = true
  · rw [if_pos h]
    exact List.filter_cons_of_pos h
  · rw [if_neg h]
    exact List.filter_cons_of_neg h

theorem filter_nid_cons (t : Task) (l : List Task) (tid : Nat) :
    (t :: l).filter (fun x => !(x.id == tid)) =
      if (t.id == tid) = true then l.filter (fun x => !(x.id == tid))
      else t :: l.filter (fun x => !(x.id == tid)) := by
  by_cases h : (t.id == tid) = true
  · rw [if_pos h]
    exact List.filter_cons_of_neg (by simp [h])
  · rw [if_neg h]
    exact List.filter_cons_of_pos (by simpa using h)

/-- The rows a column other than the move target sees after move_task's
UPDATE: its own rows minus the moved task, in unchanged order. -/
theorem move_filter_other (l : List Task) (tid ccid cid : Nat) (pos now : Nat)
    (hne : ccid ≠ cid) :
    (l.map (fun t => if t.id == tid then Models.moveUpdate t ccid pos now
        else t)).filter (fun x => x.column_id == cid) =
      (l.filter (fun x => x.column_id == cid)).filter
        (fun x => !(x.id == tid)) := by
  induction l with
  | nil => rfl
  | cons t l ih =>
    by_cases hid : (t.id == tid) = true
    · have h2 : ¬(((Models.moveUpdate t ccid pos now).column_id == cid)
          = true) := by
        simp [Models.moveUpdate, hne]
      simp only [List.map_cons]
      rw [if_pos hid, filter_col_cons, if_neg h2, filter_col_cons]
      by_cases hcol : (t.column_id == cid) = true
      · rw [if_pos hcol, filter_nid_cons, if_pos hid]
        exact ih
      · rw [if_neg hcol]
        exact ih
    · simp only [List.map_cons]
      rw [if_neg hid, filter_col_cons, filter_col_cons]
      by_cases hcol : (t.column_id == cid) = true
      · rw [if_pos hcol, if_pos hcol, filter_nid_cons, if_neg hid, ih]
      · rw [if_neg hcol, if_neg hcol]
        exact ih

/-- C1 counterexample: a reachable dense store (tasks "A", "B" at positions
0, 1 of the column) on which the controller's deleteTask (deleting "A" under
the cursor) leaves the column with the single position 1 — not a dense,
gap-free, zero-based ordering. -/
theorem c1_counterexample :
    denseColumn c1Store 1 ∧
    (KanbanBoard.delete_current_task c1Store c1Board).map
      (fun r => (r.fst, r.snd.snd)) =
      Except.ok ((Models.delete_task c1Store 1).fst, true) ∧
    ¬ denseColumn (Models.delete_task c1Store 1).fst 1 :=
  ⟨by decide, rfl, by decide⟩

/-- C1 amended: a column's ordered task list after the store's delete, and
after a cross-column move out of the column, is exactly the previous ordered
list with the removed task dropped — surviving tasks keep their exact
positions and order, and positions stay pairwise distinct, but the column is
NOT re-densified, so gaps may remain (the stated gap-free zero-based density
fails; see the counterexample). -/
theorem c1_no_redensify (s : Store) (now tid cid : Nat) (name : String)
    (hn : ((Models.get_tasks_by_column s cid).map
      (fun t => t.position)).Nodup) :
    Models.get_tasks_by_column (Models.delete_task s tid).fst cid =
      (Models.get_tasks_by_column s cid).filter (fun t => !(t.id == tid)) ∧
    (∀ s2 r c, Models.move_task s now tid name = Except.ok (s2, r) →
      Models.get_column_by_name s name = some c → c.id ≠ cid →
      Models.get_tasks_by_column s2 cid =
        (Models.get_tasks_by_column s cid).filter
          (fun t => !(t.id == tid))) := by
  have hbase : ((s.tasks.filter (fun t => t.column_id == cid)).map
      (fun t => t.position)).Nodup :=
    ((List.perm_insertionSort posLE
      (s.tasks.filter (fun t => t.column_id == cid))).map
        (fun t => t.position)).nodup hn
  constructor
  · show ((s.tasks.filter (fun t => !(t.id == tid))).filter
        (fun t => t.column_id == cid)).insertionSort posLE =
      ((s.tasks.filter (fun t => t.column_id == cid)).insertionSort
        posLE).filter (fun t => !(t.id == tid))
    rw [filter_swap]
    exact insertionSort_filter _ _ hbase
  · intro s2 r c hmv hcol hnecid
    rw [Models.move_task] at hmv
    cases htid : Models.get_task_by_id s tid with
    | none =>
      rw [htid] at hmv
      exact absurd hmv (by simp)
    | some t0 =>
      rw [htid, hcol] at hmv
      simp only [Except.ok.injEq, Prod.mk.injEq] at hmv
      obtain ⟨hs2, -⟩ := hmv
      rw [← hs2]
      show ((s.tasks.map (fun t => if t.id == tid then
          Models.moveUpdate t c.id (Models.next_position s c.id) now
        else t)).filter (fun x => x.column_id == cid)).insertionSort posLE =
      ((s.tasks.filter (fun x => x.column_id == cid)).insertionSort
        posLE).filter (fun x => !(x.id == tid))
      rw [move_filter_other _ _ _ _ _ _ hnecid]
      exact insertionSort_filter _ _ hbase

theorem c1_witness :
    (((Models.get_tasks_by_column c1wStore 2).map
      (fun t => t.position)).Nodup) ∧
    Models.get_tasks_by_column (Models.delete_task c1wStore 1).fst 2 =
      (Models.get_tasks_by_column c1wStore 2).filter
        (fun t => !(t.id == 1)) ∧
    Models.get_tasks_by_column c1wMoved 2 =
      (Models.get_tasks_by_column c1wStore 2).filter
        (fun t => !(t.id == 1)) :=
  ⟨by decide,
    (c1_no_redensify c1wStore 9 1 2 "Todo" (by decide)).1,
    (c1_no_redensify c1wStore 9 1 2 "Todo" (by decide)).2 c1wMoved
      (Models.get_task_by_id c1wMoved 1) ⟨1, "Todo", 0, 0⟩ (by decide)
      (by decide) (by decide)⟩

theorem find?_id_cons (t : Task) (l : List Task) (tid : Nat) :
    (t :: l).find? (fun x => x.id == tid) =
      if (t.id == tid) = true then some t
      else l.find? (fun x => x.id == tid) := by
  by_cases h : (t.id == tid) = true
  · rw [if_pos h]
    exact List.find?_cons_of_pos _ h
  · rw [if_neg h]
    exact List.find?_cons_of_neg _ h

/-- Looking the moved task up after move_task's UPDATE yields the updated
row. -/
theorem find?_id_map_move (l : List Task) (tid ccid pos now : Nat) :
    (l.map (fun t => if t.id == tid then Models.moveUpdate t ccid pos now
      else t)).find? (fun x => x.id == tid) =
      (l.find? (fun x => x.id == tid)).map
        (fun t => Models.moveUpdate t ccid pos now) := by
  induction l with
  | nil => rfl
  | cons t l ih =>
    simp only [List.map_cons]
    by_cases h : (t.id == tid) = true
    · rw [if_pos h, find?_id_cons, find?_id_cons, if_pos h,
        if_pos (show ((Models.moveUpdate t ccid pos now).id == tid) = true
          from h)]
      rfl
    · rw [if_neg h, find?_id_cons, find?_id_cons, if_neg h, if_neg h]
      exact ih

/-- C2 counterexample: the destination column "Todo" (id 1) holds exactly one
task, stored at position 1 (the state a deletion leaves reachable); placing a
picked-up task into it stores the task at position 2, not at 1 = the
destination's prior task count. -/
theorem c2_counterexample :
    (Models.get_tasks_by_column c2Store 1).length = 1 ∧
    (KanbanBoard.confirm_move c2Store 9 c2Board).map
        (fun r => (Models.get_task_by_id r.fst 1).map
          (fun t => (t.column_id, t.position))) =
      Except.ok (some (1, 2)) ∧
    ¬2 = (Models.get_tasks_by_column c2Store 1).length := by
  refine ⟨by decide, by decide, by decide⟩

/-- C2 amended: placing a picked-up task while the active column differs from
the origin column stores the task in the destination column at position
`next_position` — the destination's prior maximum position plus one, or 0 for
an empty destination (the append law) — which equals the destination's prior
task count only when the destination's positions are dense. -/
theorem c2_place_appends (s : Store) (now : Nat) (b : Board) (mt : Task)
    (target : Column) (t0 : Task)
    (hm : b.moving_task = some mt)
    (ho : b.original_column_idx ≠ some b.active_column)
    (hcol : b.columns[b.active_column]? = some target)
    (htask : Models.get_task_by_id s mt.id = some t0)
    (hname : Models.get_column_by_name s target.name = some target) :
    ∃ s2 b2, KanbanBoard.confirm_move s now b = Except.ok (s2, b2, true) ∧
      ∃ t2, Models.get_task_by_id s2 mt.id = some t2 ∧
        t2.column_id = target.id ∧
        t2.position = Models.next_position s target.id := by
  simp only [KanbanBoard.confirm_move, hm, hcol, ho, ne_eq,
    not_false_iff, if_true, ite_true, Models.move_task, htask, hname,
    Except.map]
  refine ⟨_, _, rfl, ?_⟩
  show ∃ t2, (s.tasks.map (fun t => if t.id == mt.id then Models.moveUpdate t
      target.id (Models.next_position s target.id) now else t)).find?
      (fun x => x.id == mt.id) = some t2 ∧ t2.column_id = target.id ∧
      t2.position = Models.next_position s target.id
  rw [find?_id_map_move]
  have hf : s.tasks.find? (fun x => x.id == mt.id) = some t0 := htask
  rw [hf]
  exact ⟨_, rfl, rfl, rfl⟩

theorem c2_witness :
    ∃ s2 b2, KanbanBoard.confirm_move c2Store 9 c2Board =
      Except.ok (s2, b2, true) ∧
      ∃ t2, Models.get_task_by_id s2 1 = some t2 ∧
        t2.column_id = 1 ∧ t2.position = Models.next_position c2Store 1 :=
  c2_place_appends c2Store 9 c2Board c2Task ⟨1, "Todo", 0, 0⟩ c2Task
    (by decide) (by decide) (by decide) (by decide) (by decide)

/-! ### Lemmas for the placement/selection claim -/

theorem mem_le_max? (l : List Nat) (a : Nat) (ha : a ∈ l) :
    ∃ m, l.max? = some m ∧ a ≤ m := by
  cases hm : l.max? with
  | none =>
    rw [List.max?_eq_none_iff] at hm
    subst hm
    cases ha
  | some m =>
    refine ⟨m, rfl, ?_⟩
    exact (List.max?_le_iff (fun _ _ _ => Nat.max_le) hm).mp (Nat.le_refl m)
      a ha

/-- Every task of a column sits strictly below the column's append
position. -/
theorem position_lt_next (s : Store) (cid : Nat) (t : Task)
    (ht : t ∈ s.tasks) (hcol : t.column_id = cid) :
    t.position < Models.next_position s cid := by
  have hmem : t.position ∈ (s.tasks.filter
      (fun x => x.column_id == cid)).map (fun x => x.position) :=
    List.mem_map_of_mem _ (List.mem_filter.mpr ⟨ht, by simp [hcol]⟩)
  obtain ⟨m, hm, hle⟩ := mem_le_max? _ _ hmem
  rw [Models.next_position, hm]
  exact Nat.lt_succ_of_le hle

/-- A position-sorted list whose member `u` strictly dominates every other
element ends in `u`. -/
theorem sorted_getLast?_eq : ∀ (l : List Task) (u : Task),
    l.Pairwise posLE → u ∈ l →
    (∀ x ∈ l, x ≠ u → x.position < u.position) → l.getLast? = some u := by
  intro l
  induction l with
  | nil =>
    intro u _ hu _
    cases hu
  | cons a t ih =>
    intro u hs hu hmax
    cases t with
    | nil =>
      cases hu with
      | head => rfl
      | tail _ h2 => cases h2
    | cons b t2 =>
      rw [List.getLast?_cons_cons]
      have hu2 : u ∈ b :: t2 := by
        rcases List.mem_cons.mp hu with heq | h2
        · by_cases hb : b = u
          · exact hb ▸ List.mem_cons_self b t2
          · have h1 : posLE a b :=
              (List.pairwise_cons.mp hs).1 b (List.mem_cons_self b t2)
            have h2 : b.position < u.position :=
              hmax b (List.mem_cons_of_mem _ (List.mem_cons_self b t2)) hb
            rw [heq] at h2
            exact absurd (Nat.lt_of_lt_of_le h2 h1) (Nat.lt_irrefl _)
        · exact h2
      exact ih u hs.of_cons hu2
        (fun x hx hxu => hmax x (List.mem_cons_of_mem a hx) hxu)

/-- move_task in resolved form: the produced store is `moveStore`. -/
theorem move_task_eq (s : Store) (now tid : Nat) (name : String) (t0 : Task)
    (c : Column) (htask : Models.get_task_by_id s tid = some t0)
    (hname : Models.get_column_by_name s name = some c) :
    Models.move_task s now tid name =
      Except.ok (moveStore s now tid c.id,
        Models.get_task_by_id (moveStore s now tid c.id) tid) := by
  rw [Models.move_task, htask, hname]
  rfl

/-- C6: after a successful cross-column place the Move Session is cleared,
the Board Snapshot (columns and per-column task lists) is refreshed from the
post-move store, and the destination column's cursor entry equals the
destination's new last index — the index at which the just-moved task now
appears, keeping it visually selected. -/
theorem c6_place_selects_moved_task (s : Store) (now : Nat) (b : Board)
    (mt t0 : Task) (target : Column)
    (hm : b.moving_task = some mt)
    (ho : b.original_column_idx ≠ some b.active_column)
    (hcol : b.columns[b.active_column]? = some target)
    (htask : Models.get_task_by_id s mt.id = some t0)
    (hids : ∀ t ∈ s.tasks, t.id = mt.id → t = t0)
    (hname : Models.get_column_by_name s target.name = some target) :
    ∃ b2, KanbanBoard.confirm_move s now b =
        Except.ok (moveStore s now mt.id target.id, b2, true) ∧
      b2.moving_task = none ∧ b2.original_column_idx = none ∧
      b2.columns = Models.get_all_columns (moveStore s now mt.id target.id) ∧
      b2.tasks_by_column =
        KanbanBoard.refresh_tbc (moveStore s now mt.id target.id) ∧
      alist_get b2.tasks_by_column target.id [] =
        Models.get_tasks_by_column (moveStore s now mt.id target.id)
          target.id ∧
      Models.get_tasks_by_column (moveStore s now mt.id target.id)
        target.id ≠ [] ∧
      alist_get b2.cursor_positions target.id 0 =
        (Models.get_tasks_by_column (moveStore s now mt.id target.id)
          target.id).length - 1 ∧
      (Models.get_tasks_by_column (moveStore s now mt.id target.id)
        target.id).getLast? =
        some (Models.moveUpdate t0 target.id
          (Models.next_position s target.id) now) := by
  have hfind : s.tasks.find? (fun t => t.id == mt.id) = some t0 := htask
  have hft0 : (t0.id == mt.id) = true := by
    have h0 := List.find?_some hfind
    simpa using h0
  have ht0mem : t0 ∈ s.tasks := List.mem_of_find?_eq_some hfind
  have hfeq : (fun t => if t.id == mt.id then Models.moveUpdate t target.id
      (Models.next_position s target.id) now else t) t0 =
      Models.moveUpdate t0 target.id (Models.next_position s target.id) now :=
    if_pos hft0
  have hUfilter : Models.moveUpdate t0 target.id
      (Models.next_position s target.id) now ∈
      (moveStore s now mt.id target.id).tasks.filter
        (fun x => x.column_id == target.id) := by
    refine List.mem_filter.mpr ⟨?_, ?_⟩
    · rw [← hfeq]
      exact List.mem_map_of_mem _ ht0mem
    · simp [Models.moveUpdate]
  have hmaxf : ∀ x ∈ (moveStore s now mt.id target.id).tasks.filter
      (fun x => x.column_id == target.id),
      x ≠ Models.moveUpdate t0 target.id (Models.next_position s target.id)
        now → x.position < (Models.moveUpdate t0 target.id
        (Models.next_position s target.id) now).position := by
    intro x hx hxU
    obtain ⟨hxmem, hxcol⟩ := List.mem_filter.mp hx
    obtain ⟨t, ht, hxt⟩ := List.mem_map.mp hxmem
    by_cases hid : (t.id == mt.id) = true
    · have hteq : t = t0 := hids t ht (by simpa using hid)
      rw [hteq, if_pos hft0] at hxt
      exact absurd hxt.symm hxU
    · have hxeq : x = t := by
        rw [← hxt]
        simp [hid]
      have htcol : t.column_id = target.id := by
        rw [hxeq] at hxcol
        simpa using hxcol
      rw [hxeq]
      exact position_lt_next s target.id t ht htcol
  have hUdest : Models.moveUpdate t0 target.id
      (Models.next_position s target.id) now ∈
      Models.get_tasks_by_column (moveStore s now mt.id target.id)
        target.id := (List.mem_insertionSort posLE).mpr hUfilter
  have hdne : Models.get_tasks_by_column (moveStore s now mt.id target.id)
      target.id ≠ [] := List.ne_nil_of_mem hUdest
  have hsorted : (Models.get_tasks_by_column (moveStore s now mt.id
      target.id) target.id).Pairwise posLE :=
    List.sorted_insertionSort posLE _
  have hlast : (Models.get_tasks_by_column (moveStore s now mt.id target.id)
      target.id).getLast? = some (Models.moveUpdate t0 target.id
      (Models.next_position s target.id) now) :=
    sorted_getLast?_eq _ _ hsorted hUdest
      (fun x hx hxU => hmaxf x ((List.mem_insertionSort posLE).mp hx) hxU)
  have htargmem : target ∈ s.columns := List.mem_of_find?_eq_some hname
  have hkid : target.id ∈ (Models.get_all_columns
      (moveStore s now mt.id target.id)).map (fun c => c.id) :=
    List.mem_map_of_mem _ ((List.mem_insertionSort colLE).mpr htargmem)
  have htbc2 : alist_get (KanbanBoard.refresh_tbc
      (moveStore s now mt.id target.id)) target.id [] =
      Models.get_tasks_by_column (moveStore s now mt.id target.id)
        target.id := tbc_get _ target.id hkid
  have hcur : alist_get (KanbanBoard.reconcile (moveStore s now mt.id
      target.id) (alist_set (KanbanBoard.reconcile (moveStore s now mt.id
      target.id) b.cursor_positions) target.id ((alist_get
      (KanbanBoard.refresh_tbc (moveStore s now mt.id target.id)) target.id
      []).length - 1))) target.id 0 =
      (Models.get_tasks_by_column (moveStore s now mt.id target.id)
        target.id).length - 1 := by
    rw [reconcile_get _ _ target.id hkid, alist_get_set_self, htbc2,
      KanbanBoard.clamp, if_neg (by simpa using hdne)]
    exact Nat.min_self _
  simp only [KanbanBoard.confirm_move, hm, hcol, ho, ne_eq, not_false_iff,
    if_true, ite_true,
    move_task_eq s now mt.id target.name t0 target htask hname, Except.map]
  exact ⟨_, rfl, rfl, rfl, rfl, rfl, htbc2, hdne, hcur, hlast⟩

theorem c6_witness :
    ∃ b2, KanbanBoard.confirm_move c6Store 9 c6Board =
        Except.ok (moveStore c6Store 9 1 1, b2, true) ∧
      b2.moving_task = none ∧ b2.original_column_idx = none ∧
      b2.columns = Models.get_all_columns (moveStore c6Store 9 1 1) ∧
      b2.tasks_by_column = KanbanBoard.refresh_tbc (moveStore c6Store 9 1 1) ∧
      alist_get b2.tasks_by_column 1 [] =
        Models.get_tasks_by_column (moveStore c6Store 9 1 1) 1 ∧
      Models.get_tasks_by_column (moveStore c6Store 9 1 1) 1 ≠ [] ∧
      alist_get b2.cursor_positions 1 0 =
        (Models.get_tasks_by_column (moveStore c6Store 9 1 1) 1).length - 1 ∧
      (Models.get_tasks_by_column (moveStore c6Store 9 1 1) 1).getLast? =
        some (Models.moveUpdate c6Task 1 (Models.next_position c6Store 1) 9) :=
  c6_place_selects_moved_task c6Store 9 c6Board c6Task c6Task
    ⟨1, "Todo", 0, 0⟩ (by decide) (by decide) (by decide) (by decide)
    (by decide) (by decide)

end Todo
